import Mathlib

/-!
Verification development for the model-lifecycle subsystem of the
`flutter_car_app` backend (files `backend/cnn.py`, `backend/outputs.py`,
`backend/app.py`).

The Python source is shallowly embedded: pure computations become Lean
functions, the module-global lazy-load state of `outputs.py` becomes
explicit state passing, Python exceptions become `Except` values
(`Except.error` = an exception escaping the function under study,
`Except.ok` = a normal return).  External library collaborators
(PIL decoding, torchvision transforms, the ResNet forward pass,
`torch.utils.data.random_split`) are modelled at their interface
boundary: the repository-level composition and control flow is
translated verbatim from the source.
-/

namespace CarApp

/-! ### String containment (Python's `'sub' in name`) -/

/-- List version of string-prefix testing, used to build substring search. -/
def listIsPre : List Char → List Char → Bool
  | [], _ => true
  | _ :: _, [] => false
  | a :: as, b :: bs => a == b && listIsPre as bs

/-- `hasSub t p` holds when `p` occurs contiguously inside `t`
(Python's `p in t` for strings). -/
def hasSub : List Char → List Char → Bool
  | t, p =>
    if listIsPre p t then true
    else match t with
      | [] => false
      | _ :: ts => hasSub ts p

/-- Python's substring containment `sub in s`. -/
def strContains (s sub : String) : Bool := hasSub s.data sub.data

/-! ### Pixel-level image model

A decoded RGB image is a height, a width and a pixel function returning a
rational (R,G,B) triple.  Tensors produced by `ToTensor`/`Normalize` reuse
the same carrier.  This is the interface model for the PIL/torchvision
collaborators; exact resampling arithmetic of the external library is
abstracted (nearest-index resampling), which no claim here depends on. -/

structure Image where
  height : Nat
  width : Nat
  pix : Nat → Nat → ℚ × ℚ × ℚ

/-- Interface model of `transforms.Resize((h', w'))`: deterministic
resampling by index scaling. -/
def resizeImg (h' w' : Nat) (i : Image) : Image :=
  ⟨h', w', fun r c => i.pix (r * i.height / h') (c * i.width / w')⟩

/-- `transforms.RandomCrop(size)` once the top-left corner `(top, left)`
has been drawn: the cropped window of the image. -/
def cropImg (top left size : Nat) (i : Image) : Image :=
  ⟨size, size, fun r c => i.pix (top + r) (left + c)⟩

/-- Horizontal mirror (the flipped branch of `RandomHorizontalFlip`). -/
def flipImg (i : Image) : Image :=
  ⟨i.height, i.width, fun r c => i.pix r (i.width - 1 - c)⟩

/-- Interface model of rotation by a drawn angle: rotation by 0 degrees is
the identity; a nonzero angle is an abstract pixel remapping (the external
library's resampling geometry is not code of this repository). -/
def rotateImg (deg : ℤ) (i : Image) : Image :=
  if deg = 0 then i
  else ⟨i.height, i.width, fun r c =>
    i.pix ((r + deg.natAbs) % i.height) ((c + deg.natAbs) % i.width)⟩

/-- Interface model of `ColorJitter` once the brightness/contrast/
saturation factors and hue shift have been drawn: an affine change of each
channel. -/
def jitterImg (fb fc fs fh : ℚ) (i : Image) : Image :=
  ⟨i.height, i.width, fun r c =>
    let p := i.pix r c
    (fb * fc * fs * p.1 + fh, fb * fc * fs * p.2.1 + fh, fb * fc * fs * p.2.2 + fh)⟩

/-- Channel-averaging grayscale conversion (the applied branch of
`RandomGrayscale`). -/
def grayImg (i : Image) : Image :=
  ⟨i.height, i.width, fun r c =>
    let p := i.pix r c
    let m := (p.1 + p.2.1 + p.2.2) / 3
    (m, m, m)⟩

/-- `transforms.ToTensor()`: 8-bit channel values scaled into `[0, 1]`. -/
def toTensorImg (i : Image) : Image :=
  ⟨i.height, i.width, fun r c =>
    let p := i.pix r c
    (p.1 / 255, p.2.1 / 255, p.2.2 / 255)⟩

/-- `transforms.Normalize(mean, std)` with per-channel constants. -/
def normalizeImg (mean std : List ℚ) (i : Image) : Image :=
  ⟨i.height, i.width, fun r c =>
    let p := i.pix r c
    ((p.1 - mean.getD 0 0) / std.getD 0 1,
     (p.2.1 - mean.getD 1 0) / std.getD 1 1,
     (p.2.2 - mean.getD 2 0) / std.getD 2 1)⟩

/-! ### Transform pipelines (`transforms.Compose([...])`)

Each `transforms.Compose` argument list in the source is embedded as a
`List TOp` in the same order.  Randomized transforms draw values from an
explicit stream of random numbers (`List Nat`, consumed head-first); the
deterministic transforms never touch the stream. -/

inductive TOp where
  | resize (h w : Nat)
  | randomCrop (size : Nat)
  | randomHorizontalFlip (p : ℚ)
  | randomRotation (deg : ℚ)
  | colorJitter (b c s h : ℚ)
  | randomGrayscale (p : ℚ)
  | toTensor
  | normalize (mean std : List ℚ)
deriving DecidableEq

/-- Pop one value off the random stream (0 when exhausted). -/
def draw : List Nat → Nat × List Nat
  | [] => (0, [])
  | n :: r => (n, r)

/-- Jitter factor derived from one random draw: the neutral factor 1 when
the draw is congruent to 1 modulo 3, otherwise a factor off neutral by the
configured amplitude. -/
def jitterFactor (amp : ℚ) (u : Nat) : ℚ :=
  1 + amp * (((u % 3 : Nat) : ℚ) - 1)

/-- One transform step: interface semantics of each torchvision op, with
the randomness made explicit. -/
def applyOp : TOp → Image × List Nat → Image × List Nat
  | .resize h w, (i, r) => (resizeImg h w i, r)
  | .randomCrop s, (i, r) =>
      let (t, r) := draw r
      let (l, r) := draw r
      (cropImg t l s i, r)
  | .randomHorizontalFlip _, (i, r) =>
      let (u, r) := draw r
      (if u % 2 = 0 then flipImg i else i, r)
  | .randomRotation _, (i, r) =>
      let (u, r) := draw r
      (rotateImg ((u % 31 : Nat) - 15 : ℤ) i, r)
  | .colorJitter b c s h, (i, r) =>
      let (ub, r) := draw r
      let (uc, r) := draw r
      let (us, r) := draw r
      let (uh, r) := draw r
      (jitterImg (jitterFactor b ub) (jitterFactor c uc) (jitterFactor s us)
        (h * (((uh % 3 : Nat) : ℚ) - 1)) i, r)
  | .randomGrayscale _, (i, r) =>
      let (u, r) := draw r
      (if u % 10 = 0 then grayImg i else i, r)
  | .toTensor, (i, r) => (toTensorImg i, r)
  | .normalize mean std, (i, r) => (normalizeImg mean std i, r)

/-- Run a `transforms.Compose` pipeline on an image with an explicit
random stream, returning the produced tensor. -/
def runPipeline (ops : List TOp) (rng : List Nat) (img : Image) : Image :=
  (ops.foldl (fun st op => applyOp op st) (img, rng)).1

/-- ImageNet per-channel means used by both files. -/
def imagenetMean : List ℚ := [485/1000, 456/1000, 406/1000]

/-- ImageNet per-channel standard deviations used by both files. -/
def imagenetStd : List ℚ := [229/1000, 224/1000, 225/1000]

/-- `outputs.py` `TRANSFORM`: the inference-configuration pipeline
(`Resize((224, 224))`, `ToTensor()`, `Normalize(...)`). -/
def inferenceTransform : List TOp :=
  [.resize 224 224, .toTensor, .normalize imagenetMean imagenetStd]

/-- `cnn.py` `Model.__init__` `self.transform`: the training-configuration
pipeline with randomized augmentation, in source order. -/
def trainingTransform : List TOp :=
  [.resize 256 256, .randomCrop 224, .randomHorizontalFlip (1/2),
   .randomRotation 15, .colorJitter (4/10) (4/10) (4/10) (1/10),
   .randomGrayscale (1/10), .toTensor, .normalize imagenetMean imagenetStd]

/-! ### Labeled dataset indexer (`cnn.py` `SimpleDataset.__init__`) -/

/-- A directory tree restricted to what the indexer touches: the class
subdirectories of the data directory, each with its file listing.  A class
name absent from the list is a missing subdirectory
(`os.path.exists` false). -/
structure FS where
  dirs : List (String × List String)

/-- `os.listdir(os.path.join(data_dir, name))` guarded by
`os.path.exists`: `none` when the subdirectory is missing. -/
def listDirOpt (fs : FS) (name : String) : Option (List String) :=
  (fs.dirs.find? (fun p => p.1 == name)).map (fun p => p.2)

/-- `img_file.endswith(('.jpg', '.jpeg', '.png'))`. -/
def isImageFile (f : String) : Bool :=
  f.endsWith ".jpg" || f.endsWith ".jpeg" || f.endsWith ".png"

/-- The samples one class contributes to the index: every image file of
its subdirectory paired with the class index, or nothing when the
subdirectory is missing. -/
def classSamples (fs : FS) (dataDir : String) (classIdx : Nat)
    (className : String) : List (String × Nat) :=
  match listDirOpt fs className with
  | none => []
  | some files =>
      (files.filter isImageFile).map
        (fun f => (dataDir ++ "/" ++ className ++ "/" ++ f, classIdx))

/-- `SimpleDataset.__init__`: enumerate the class list, scan each class
subdirectory, and collect `(file path, class index)` pairs.  The source
constructor contains no raise statement: indexing is total and an empty
result is a normally-constructed dataset. -/
def simpleDatasetInit (fs : FS) (dataDir : String)
    (classes : List String) : List (String × Nat) :=
  classes.enum.flatMap (fun p => classSamples fs dataDir p.1 p.2)

/-- The image count of one class directory as `cnn.py`'s `main` computes
it (0 for a missing directory). -/
def dirImageCount (fs : FS) (name : String) : Nat :=
  match listDirOpt fs name with
  | none => 0
  | some files => (files.filter isImageFile).length

/-- The class list hard-coded in `cnn.py`'s `main`. -/
def mainClasses : List String := ["Safe", "Cautious", "Dangerous"]

/-- `total_images` as counted by `cnn.py`'s `main`. -/
def mainTotalImages (fs : FS) : Nat :=
  (mainClasses.map (fun c => dirImageCount fs c)).sum

/-- `cnn.py`'s `main` proceeds to construct and train the model exactly
when `total_images` is nonzero; on zero it prints a message and returns
early. -/
def mainStartsTraining (fs : FS) : Bool :=
  !(mainTotalImages fs == 0)

/-! ### Train/validation split (`cnn.py` `Model.setup_data`)

`train_size = int(train_ratio * len(dataset))` with `train_ratio = 0.8`:
for the dataset sizes reachable here, flooring the IEEE-754 product
`0.8 * n` coincides with `⌊4n/5⌋` (the double nearest 0.8 is slightly
above 4/5, so exact multiples are not undershot; e.g. `int(0.8*100) = 80`).
`torch.utils.data.random_split` is modelled at its interface: it chooses a
uniformly random permutation of the dataset and splits it at `train_size`;
the permutation appears as an explicit argument constrained to be a
permutation of the samples. -/

/-- `int(0.8 * n)`. -/
def trainSizeOf (n : Nat) : Nat := 4 * n / 5

/-- `Model.setup_data`'s partition of the (shuffled) samples into the
training subset and the validation subset. -/
def setupDataSplit (samples shuffled : List α) : List α × List α :=
  (shuffled.take (trainSizeOf samples.length),
   shuffled.drop (trainSizeOf samples.length))

/-! ### Layer freezing and optimizer construction (`cnn.py`) -/

/-- One named model parameter with its `requires_grad` flag. -/
structure Param where
  name : String
  requiresGrad : Bool
deriving DecidableEq

/-- `Model.freeze_layers`: `requires_grad` becomes true exactly for
parameters whose name contains `'layer4'` or `'fc'`, false for all
others. -/
def freezeLayers (ps : List Param) : List Param :=
  ps.map (fun p =>
    { p with requiresGrad :=
        strContains p.name "layer4" || strContains p.name "fc" })

/-- An optimizer as constructed in `Model.train`: its kind, learning rate
and the parameter list it was handed. -/
structure Optim where
  kind : String
  lr : ℚ
  params : List Param
deriving DecidableEq

/-- `torch.optim.Adam(self.model.parameters(), lr=0.0001)`: the optimizer
receives the full parameter list, with no `requires_grad` filtering. -/
def trainOptimizer (ps : List Param) : Optim :=
  ⟨"Adam", 1/10000, ps⟩

/-- The named parameters of `models.resnet18` after the head replacement
of `cnn.py` (representative subset covering every top-level block; the
counterexamples below only need that names outside `layer4`/`fc`
exist). -/
def resnetParams : List Param :=
  [⟨"conv1.weight", true⟩, ⟨"bn1.weight", true⟩, ⟨"bn1.bias", true⟩,
   ⟨"layer1.0.conv1.weight", true⟩, ⟨"layer2.0.conv1.weight", true⟩,
   ⟨"layer3.0.conv1.weight", true⟩, ⟨"layer4.0.conv1.weight", true⟩,
   ⟨"layer4.1.bn2.bias", true⟩, ⟨"fc.1.weight", true⟩, ⟨"fc.1.bias", true⟩]

/-! ### Training loop checkpoint policy (`cnn.py` `Model.train`)

The per-epoch validation counts are the abstraction boundary: what the
optimizer steps produce is not modelled, only the end-of-epoch decision
`if val_acc > best_acc: best_acc = val_acc; torch.save(...)` with
`best_acc` initialized to 0.  Each `torch.save` overwrites
`best_model.pth`; the write log records every overwrite together with the
accuracy that triggered it. -/

/-- End-of-epoch validation counts of one epoch. -/
structure EpochStats where
  valCorrect : Nat
  valTotal : Nat
deriving DecidableEq

/-- `val_acc = 100 * val_correct / val_total`. -/
def valAcc (e : EpochStats) : ℚ :=
  100 * (e.valCorrect : ℚ) / (e.valTotal : ℚ)

/-- The epoch loop of `Model.train`, restricted to the best-accuracy
record and the checkpoint write log: state is `(best_acc, writes)` where
`writes` lists `(epoch index, accuracy)` for every `torch.save`. -/
def runEpochs (es : List EpochStats) : ℚ × List (Nat × ℚ) :=
  es.enum.foldl
    (fun st p =>
      let acc := valAcc p.2
      if st.1 < acc then (acc, st.2 ++ [(p.1, acc)]) else st)
    (0, [])

/-- The write log the claim predicts: epoch `i` is written exactly when
its accuracy strictly exceeds the best of the earlier epochs (with the
run's initial best of 0). -/
def savesSpec (accs : List ℚ) : List (Nat × ℚ) :=
  accs.enum.filter (fun p => (accs.take p.1).foldl max 0 < p.2)

/-! ### Lazy-load race model (`outputs.py` globals, claim C9)

The cold-start prologue of `predict` is
`if MODEL is None: load_model()`, and `load_model` re-checks
`if MODEL is not None: return` before building the model and reading the
checkpoint.  There is no lock.  Each thread is reduced to its three
relevant atomic steps: the check in `predict`, the check in `load_model`,
and the load body (assign `MODEL`, read `best_model.pth`).  A schedule is
a list of thread indices; running it counts checkpoint reads. -/

inductive TPc where
  | atCheck1
  | atCheck2
  | atLoad
  | finished
deriving DecidableEq

/-- Global state of the race model: whether `MODEL` has been assigned,
how many times the checkpoint has been read from storage, and each
thread's program counter. -/
structure RaceState where
  modelSet : Bool
  loadCount : Nat
  pcs : List TPc
deriving DecidableEq

/-- Execute one atomic step of thread `i`. -/
def stepThread (g : RaceState) (i : Nat) : RaceState :=
  match g.pcs.get? i with
  | some .atCheck1 =>
      { g with pcs := g.pcs.set i (if g.modelSet then .finished else .atCheck2) }
  | some .atCheck2 =>
      { g with pcs := g.pcs.set i (if g.modelSet then .finished else .atLoad) }
  | some .atLoad =>
      { modelSet := true, loadCount := g.loadCount + 1,
        pcs := g.pcs.set i .finished }
  | _ => g

/-- Run an interleaving schedule from a cold service with `n` threads
each about to enter `predict`'s check. -/
def runSched (n : Nat) (sched : List Nat) : RaceState :=
  sched.foldl stepThread ⟨false, 0, List.replicate n .atCheck1⟩

/-- The sequential (non-interleaved) schedule: every thread runs its
three steps to completion before the next thread starts. -/
def seqSched (n : Nat) : List Nat :=
  (List.range n).flatMap (fun i => [i, i, i])

/-! ### Score mathematics: softmax and arg-max

`torch.softmax(outputs, dim=1)` over the single row of scores, and
`torch.max(outputs, 1)` which returns the index of the first occurrence
of the maximal score. -/

/-- Softmax over a score vector: exponentials normalized by their sum. -/
noncomputable def softmax (l : List ℝ) : List ℝ :=
  l.map (fun x => Real.exp x / (l.map Real.exp).sum)

/-- Tail of the first-maximum search: `i` is the index of the next
element, `bi`/`bv` the best index and value so far; a later element wins
only by strict excess, matching `torch.max`'s first-occurrence rule. -/
noncomputable def argmaxAux : Nat → Nat → ℝ → List ℝ → Nat
  | _, bi, _, [] => bi
  | i, bi, bv, x :: xs =>
      if bv < x then argmaxAux (i + 1) i x xs
      else argmaxAux (i + 1) bi bv xs

/-- Index of the first maximal element (`torch.max(outputs, 1)`;
0 on the empty list, which the 3-way head never produces). -/
noncomputable def argmaxIdx : List ℝ → Nat
  | [] => 0
  | x :: xs => argmaxAux 1 0 x xs

/-! ### Python dict construction

`{k: v for k, v in pairs}`: insertion-ordered keys, a repeated key keeps
its first position and takes the last value. -/

/-- One Python dict assignment `d[k] = v`. -/
def pyDictInsert (m : List (String × ℝ)) (k : String) (v : ℝ) :
    List (String × ℝ) :=
  if m.any (fun p => p.1 == k) then
    m.map (fun p => if p.1 == k then (k, v) else p)
  else m ++ [(k, v)]

/-- A Python dict comprehension over a list of key-value pairs. -/
def pyDict (l : List (String × ℝ)) : List (String × ℝ) :=
  l.foldl (fun m p => pyDictInsert m p.1 p.2) []

/-! ### Inference service (`outputs.py`)

Python exceptions are values of `PyErr`; `Except.error e` at a function's
result type means the exception `e` escapes that function. -/

/-- The Python exception kinds the embedded control flow distinguishes:
`except RuntimeError` in `load_model` catches only the first kind, the
bare `except Exception` in `predict`'s try-block catches all of them. -/
inductive PyErr where
  | runtimeError (msg : String)
  | fileNotFound (msg : String)
  | valueError (msg : String)
  | otherError (msg : String)
deriving DecidableEq

/-- `str(e)`. -/
def PyErr.msg : PyErr → String
  | .runtimeError m => m
  | .fileNotFound m => m
  | .valueError m => m
  | .otherError m => m

/-- The two head configurations `load_model` tries:
`nn.Linear(in_features, 3)` alone, or
`nn.Sequential(nn.Dropout(0.5), nn.Linear(in_features, 3))`. -/
inductive HeadShape where
  | bare
  | wrapped
deriving DecidableEq

/-- What `best_model.pth` holds: missing file, a state dict saved from one
of the two head configurations, or a structurally incompatible state
dict. -/
inductive CkptFile where
  | missing
  | shaped (s : HeadShape)
  | otherShape
deriving DecidableEq

/-- `torch.load('best_model.pth', ...)`: `FileNotFoundError` when the
file is missing, otherwise the stored state dict. -/
def torchLoad : CkptFile → Except PyErr CkptFile
  | .missing =>
      .error (.fileNotFound "No such file or directory: best_model.pth")
  | c => .ok c

/-- `MODEL.load_state_dict(...)` with the model head in shape `head`:
raises `RuntimeError` on a structural mismatch. -/
def loadStateDict (head : HeadShape) (c : CkptFile) : Except PyErr Unit :=
  if c = .shaped head then .ok ()
  else .error (.runtimeError "Error(s) in loading state_dict: size mismatch for fc")

/-- One load attempt in `load_model`: reshape the head, `torch.load` the
file, `load_state_dict` it. -/
def loadAttempt (head : HeadShape) (f : CkptFile) : Except PyErr Unit := do
  let c ← torchLoad f
  loadStateDict head c

/-- `load_model`'s weight-restoring logic: try the bare linear head;
on (and only on) `RuntimeError`, retry with the dropout-wrapped head; an
error of the retry, or a non-`RuntimeError` of the first attempt,
escapes. -/
def load_model (f : CkptFile) : Except PyErr HeadShape :=
  match loadAttempt .bare f with
  | .ok _ => .ok .bare
  | .error (.runtimeError _) =>
      (loadAttempt .wrapped f).map (fun _ => .wrapped)
  | .error e => .error e

/-- The three accepted representations of `predict`'s `image_input`, plus
any other runtime type. -/
inductive ImageInput where
  | path (name : String)
  | pil (img : Image)
  | bytesBuf (id : Nat)
  | otherType
deriving Inhabited

/-- The decoding collaborators (PIL): what `Image.open(path)`,
`image.convert('RGB')` on an in-memory image, and `Image.open(BytesIO)`
return for each input, with `Except.error` the raised decode
exception's message. -/
structure DecodeEnv where
  openPath : String → Except String Image
  convertPil : Image → Except String Image
  openBytes : Nat → Except String Image

/-- `predict`'s input dispatch and decode: the three `isinstance`
branches, else `raise ValueError("Unsupported image input type")`. -/
def decodeInput (env : DecodeEnv) : ImageInput → Except PyErr Image
  | .path n => (env.openPath n).mapError .otherError
  | .pil i => (env.convertPil i).mapError .otherError
  | .bytesBuf b => (env.openBytes b).mapError .otherError
  | .otherType => .error (.valueError "Unsupported image input type")

/-- The structured result dict of `predict`.  The three keys
`prediction`, `confidence`, `all_probabilities` are always present
(record fields); the `error` key is present exactly when the `error`
field is `some`. -/
structure PredResult where
  error : Option String
  prediction : Option String
  confidence : ℝ
  all_probabilities : List (String × ℝ)

/-- The body of `predict`'s try-block: decode, apply `TRANSFORM`, run the
model forward (`fwd`, the loaded network's forward pass, abstract), take
softmax and first-max index, index the class list and the probability
row, and build the result dict.  Any raised exception is the `.error`
case. -/
noncomputable def tryBlock (fwd : Image → List ℝ) (env : DecodeEnv) (input : ImageInput)
    (classes : List String) : Except PyErr (String × ℝ × List (String × ℝ)) := do
  let image ← decodeInput env input
  let tensor := runPipeline inferenceTransform [] image
  let outputs := fwd tensor
  let probabilities := softmax outputs
  let predicted := argmaxIdx outputs
  let predictedClass ←
    match classes.get? predicted with
    | some c => Except.ok c
    | none => Except.error (.otherError "list index out of range")
  let confidence ←
    match probabilities.get? predicted with
    | some v => Except.ok v
    | none => Except.error (.otherError "index out of range")
  Except.ok (predictedClass, confidence, pyDict (classes.zip probabilities))

/-- The lazy-load prologue `if MODEL is None: load_model()`: outside the
try-block, so its exceptions escape `predict`. -/
def loadStep (st : Option HeadShape) (ckpt : CkptFile) :
    Except PyErr (Option HeadShape) :=
  match st with
  | some h => .ok (some h)
  | none => (load_model ckpt).map some

/-- `outputs.py` `predict`: lazy load (uncaught), then the try-block whose
failures become the structured error dict.  Returns the new global state
and the result dict; `Except.error` is an exception escaping `predict` to
its caller. -/
noncomputable def predict (fwd : Image → List ℝ) (ckpt : CkptFile) (env : DecodeEnv)
    (st : Option HeadShape) (input : ImageInput) (classes : List String) :
    Except PyErr (Option HeadShape × PredResult) := do
  let st' ← loadStep st ckpt
  match tryBlock fwd env input classes with
  | .ok r =>
      .ok (st', ⟨none, some r.1, r.2.1, r.2.2⟩)
  | .error e =>
      .ok (st', ⟨some e.msg, none, 0, []⟩)

/-! ### Concrete instances used by witnesses and counterexamples -/

/-- A concrete decoded test image with a horizontal intensity gradient. -/
def demoImg : Image := ⟨300, 300, fun r c => ((r : ℚ), (c : ℚ), 0)⟩

/-- Random stream drawing crop corner (0,0), no flip, rotation angle 0,
neutral jitter, no grayscale. -/
def rngA : List Nat := [0, 0, 1, 15, 1, 1, 1, 1, 1]

/-- Same stream but with crop corner (1,0). -/
def rngB : List Nat := [1, 0, 1, 15, 1, 1, 1, 1, 1]

/-- A loaded network whose forward pass returns equal scores for the three
classes (the head `nn.Linear(in_features, 3)` always emits 3 scores). -/
noncomputable def cFwd : Image → List ℝ := fun _ => [0, 0, 0]

/-- Decoding collaborators for which every input decodes successfully. -/
def cEnvOk : DecodeEnv :=
  ⟨fun _ => .ok demoImg, fun i => .ok i, fun _ => .ok demoImg⟩

/-- Decoding collaborators for which every input fails to decode. -/
def cEnvBad : DecodeEnv :=
  ⟨fun _ => .error "cannot identify image file",
   fun _ => .error "cannot identify image file",
   fun _ => .error "cannot identify image file"⟩

/-- The serving class list of `app.py`. -/
def cClasses : List String := ["safe", "too_close", "danger"]

/-- A concrete three-epoch run: validation accuracies 50%, 30%, 80%. -/
def cEpochs : List EpochStats := [⟨5, 10⟩, ⟨3, 10⟩, ⟨8, 10⟩]

/-- A concrete data directory: the `Safe` class has one image file and one
non-image file; the `Cautious` and `Dangerous` subdirectories are
missing. -/
def cFS : FS := ⟨[("Safe", ["a.jpg", "notes.txt"])]⟩

/-! ### Supporting lemmas -/

theorem sum_map_div (l : List ℝ) (c : ℝ) :
    (l.map (fun x => x / c)).sum = l.sum / c := by
  induction l with
  | nil => simp
  | cons a t ih => simp [ih, add_div]

theorem softmax_length (l : List ℝ) : (softmax l).length = l.length := by
  simp [softmax]

theorem softmax_sum (l : List ℝ) (h : l ≠ []) : (softmax l).sum = 1 := by
  have hpos : 0 < (l.map Real.exp).sum := by
    apply List.sum_pos
    · intro x hx
      rcases List.mem_map.1 hx with ⟨y, _, rfl⟩
      exact Real.exp_pos y
    · simpa using h
  have : (softmax l).sum = (l.map Real.exp).sum / (l.map Real.exp).sum := by
    unfold softmax
    rw [show (fun x => Real.exp x / (l.map Real.exp).sum)
          = (fun x => x / (l.map Real.exp).sum) ∘ Real.exp from rfl,
        ← List.map_map, sum_map_div]
  rw [this, div_self (ne_of_gt hpos)]

theorem argmaxAux_map_strictMono (f : ℝ → ℝ) (hf : StrictMono f) :
    ∀ (xs : List ℝ) (i bi : Nat) (bv : ℝ),
      argmaxAux i bi (f bv) (xs.map f) = argmaxAux i bi bv xs := by
  intro xs
  induction xs with
  | nil => intro i bi bv; rfl
  | cons x t ih =>
      intro i bi bv
      by_cases hlt : bv < x
      · simp [argmaxAux, hf hlt, hlt, ih]
      · have : ¬ f bv < f x := fun hc => hlt (hf.lt_iff_lt.1 hc)
        simp [argmaxAux, this, hlt, ih]

theorem argmaxIdx_map_strictMono (f : ℝ → ℝ) (hf : StrictMono f)
    (l : List ℝ) : argmaxIdx (l.map f) = argmaxIdx l := by
  cases l with
  | nil => rfl
  | cons x t => simpa [argmaxIdx] using argmaxAux_map_strictMono f hf t 1 0 x

theorem softmax_argmax (l : List ℝ) (hS : 0 < (l.map Real.exp).sum) :
    argmaxIdx (softmax l) = argmaxIdx l := by
  have hmono : StrictMono (fun x => Real.exp x / (l.map Real.exp).sum) := by
    intro a b hab
    exact div_lt_div_of_pos_right (Real.exp_lt_exp.2 hab) hS
  exact argmaxIdx_map_strictMono _ hmono l

theorem argmaxAux_lt (xs : List ℝ) :
    ∀ (i bi : Nat) (bv : ℝ), bi < i → argmaxAux i bi bv xs < i + xs.length := by
  induction xs with
  | nil => intro i bi bv h; simp only [argmaxAux, List.length_nil]; omega
  | cons x t ih =>
      intro i bi bv h
      by_cases hlt : bv < x
      · simp only [argmaxAux, if_pos hlt, List.length_cons]
        have := ih (i + 1) i x (Nat.lt_succ_self i)
        omega
      · simp only [argmaxAux, if_neg hlt, List.length_cons]
        have := ih (i + 1) bi bv (Nat.lt_succ_of_lt h)
        omega

theorem argmaxIdx_lt (l : List ℝ) (h : l ≠ []) : argmaxIdx l < l.length := by
  cases l with
  | nil => exact absurd rfl h
  | cons x t =>
      have h1 := argmaxAux_lt t 1 0 x (by omega)
      simpa [argmaxIdx, Nat.add_comm] using h1






theorem pyDictInsert_notMem (m : List (String × ℝ)) (k : String) (v : ℝ)
    (h : ∀ p ∈ m, p.1 ≠ k) : pyDictInsert m k v = m ++ [(k, v)] := by
  unfold pyDictInsert
  rw [if_neg]
  intro hc
  rcases List.any_eq_true.1 hc with ⟨p, hp, hpk⟩
  exact h p hp (by simpa using hpk)

theorem pyDict_foldl_nodup :
    ∀ (l m : List (String × ℝ)),
      (m.map Prod.fst ++ l.map Prod.fst).Nodup →
      l.foldl (fun acc p => pyDictInsert acc p.1 p.2) m = m ++ l := by
  intro l
  induction l with
  | nil => intro m _; simp
  | cons a t ih =>
      intro m h
      have hsplit :
          (m.map Prod.fst ++ (a :: t).map Prod.fst)
            = ((m ++ [a]).map Prod.fst ++ t.map Prod.fst) := by
        simp
      rw [hsplit] at h
      have ha : ∀ p ∈ m, p.1 ≠ a.1 := by
        intro p hp hpk
        have hnd := (List.nodup_append.1 h).1
        rcases List.nodup_append.1 (by simpa using hnd :
            (m.map Prod.fst ++ [a.1]).Nodup) with ⟨_, _, hdisj⟩
        exact hdisj (List.mem_map_of_mem Prod.fst hp) (by simp [hpk])
      simp only [List.foldl_cons]
      rw [pyDictInsert_notMem m a.1 a.2 ha]
      simpa using ih (m ++ [a]) h

theorem pyDict_eq_self (l : List (String × ℝ))
    (h : (l.map Prod.fst).Nodup) : pyDict l = l := by
  simpa [pyDict] using pyDict_foldl_nodup l [] (by simpa using h)

/-! ### Claim C4 -/

/-- C4 counterexample: indexing a dataset directory in which every class
subdirectory is missing — zero samples across all classes — does not
fail: `SimpleDataset.__init__` completes normally with an empty sample
list instead of raising an `EmptyDatasetError` (the source constructor
contains no raise statement and no emptiness check). -/
theorem C4_counterexample :
    simpleDatasetInit ⟨[]⟩ "data" ["Safe", "Cautious", "Dangerous"] = [] := by
  decide

/-- C4 (amended): indexing never fails — a missing class subdirectory
contributes zero samples and the total sample count is the sum of the
per-class image counts (an all-empty directory yields an empty,
successfully constructed index); separately, the training entry point
`main` refuses to start training exactly when its image count over the
class directories is zero. -/
theorem C4_zero_samples_not_error (fs : FS) (dataDir : String)
    (classes : List String) (idx : Nat) (c : String)
    (hmiss : listDirOpt fs c = none) :
    classSamples fs dataDir idx c = []
    ∧ (simpleDatasetInit fs dataDir classes).length
        = (classes.map (fun cl => dirImageCount fs cl)).sum
    ∧ (mainStartsTraining fs = false ↔ mainTotalImages fs = 0) := by
  refine ⟨?_, ?_, ?_⟩
  · simp [classSamples, hmiss]
  · unfold simpleDatasetInit
    have hlen : ∀ (p : Nat × String),
        (classSamples fs dataDir p.1 p.2).length = dirImageCount fs p.2 := by
      intro p
      unfold classSamples dirImageCount
      cases listDirOpt fs p.2 <;> simp
    rw [List.flatMap, List.length_flatten, List.map_map]
    have : (List.map ((fun l => l.length) ∘ fun p => classSamples fs dataDir p.1 p.2)
          classes.enum)
        = classes.enum.map (fun p => dirImageCount fs p.2) := by
      apply List.map_congr_left
      intro p _
      exact hlen p
    rw [this]
    have : classes.enum.map (fun p => dirImageCount fs p.2)
        = (classes.enum.map Prod.snd).map (fun cl => dirImageCount fs cl) := by
      rw [List.map_map]; rfl
    rw [this, List.enum_map_snd]
  · simp [mainStartsTraining]

/-- C4 witness: the amended statement at a concrete directory tree whose
`Cautious` subdirectory is missing. -/
theorem C4_witness :
    classSamples cFS "data" 1 "Cautious" = []
    ∧ (simpleDatasetInit cFS "data" mainClasses).length
        = (mainClasses.map (fun cl => dirImageCount cFS cl)).sum
    ∧ (mainStartsTraining cFS = false ↔ mainTotalImages cFS = 0) :=
  C4_zero_samples_not_error cFS "data" mainClasses 1 "Cautious" (by decide)

/-! ### Claim C5 -/

/-- C5: the serving-path preprocessing (`outputs.py` `TRANSFORM`) is
deterministic — the random stream never influences its output — but
`cnn.py`'s `Model.predict` preprocesses with `self.transform`, the
training pipeline containing `RandomCrop`/`RandomHorizontalFlip`/
`RandomRotation`/`ColorJitter`/`RandomGrayscale`: two runs of that
pipeline on the same decoded image with different random draws (crop
corner (0,0) versus (1,0), everything else drawn identically) produce
different tensors, so the inference entry point `Model.predict` is not
deterministic and is not augmentation-free. -/
theorem C5_inference_transform_deterministic_model_predict_not :
    (∀ (r r' : List Nat) (img : Image),
        runPipeline inferenceTransform r img
          = runPipeline inferenceTransform r' img)
    ∧ runPipeline trainingTransform rngA demoImg
        ≠ runPipeline trainingTransform rngB demoImg := by
  constructor
  · intro r r' img
    rfl
  · intro hc
    have h0 := congrArg (fun im => im.pix 0 0) hc
    simp only [runPipeline, trainingTransform, rngA, rngB, demoImg,
      List.foldl_cons, List.foldl_nil, applyOp, draw, resizeImg, cropImg,
      flipImg, rotateImg, jitterImg, grayImg, toTensorImg, normalizeImg,
      jitterFactor, imagenetMean, imagenetStd] at h0
    norm_num [Prod.ext_iff] at h0

/-! ### Claim C6 -/

/-- C6 counterexample: after `freeze_layers`, the optimizer built by
`Model.train` — `torch.optim.Adam(self.model.parameters(), lr=0.0001)` —
contains a parameter with `requires_grad = False` (e.g. `conv1.weight`),
so it is not constructed over the trainable parameters only. -/
theorem C6_counterexample :
    (trainOptimizer (freezeLayers resnetParams)).params.any
      (fun p => !p.requiresGrad) = true := by
  decide

/-- C6 (amended): `freeze_layers` marks exactly the parameters whose
names contain `'layer4'` or `'fc'` as trainable (the last backbone stage
and the classification head) and freezes all others, keeping the
parameter list otherwise unchanged; the optimizer is Adam with learning
rate 0.0001, constructed over the full parameter list — frozen
parameters included (they simply receive no gradients). -/
theorem C6_freeze_policy_optimizer (ps : List Param) :
    ((freezeLayers ps).all (fun p =>
        p.requiresGrad
          == (strContains p.name "layer4" || strContains p.name "fc")) = true)
    ∧ (freezeLayers ps).map Param.name = ps.map Param.name
    ∧ trainOptimizer (freezeLayers ps)
        = { kind := "Adam", lr := 1/10000, params := freezeLayers ps } := by
  refine ⟨?_, ?_, rfl⟩
  · simp [freezeLayers, List.all_map, List.all_eq_true, Function.comp]
  · simp [freezeLayers, List.map_map]

/-! ### Claim C8 -/

/-- C8: `setup_data`'s split partitions the sample set: with the shuffled
order some permutation of the samples (the interface contract of
`torch.utils.data.random_split`), the training subset has
`int(0.8 * n)` elements and the validation subset the remaining
`n - int(0.8 * n)`, their concatenation is a permutation of the full
sample set, they are disjoint whenever the samples are distinct, and over
100 samples the sizes are exactly 80 and 20. -/
theorem C8_split_partition {α : Type} (samples shuffled : List α)
    (hperm : shuffled.Perm samples) :
    (setupDataSplit samples shuffled).1.length = trainSizeOf samples.length
    ∧ (setupDataSplit samples shuffled).2.length
        = samples.length - trainSizeOf samples.length
    ∧ ((setupDataSplit samples shuffled).1
        ++ (setupDataSplit samples shuffled).2).Perm samples
    ∧ (samples.Nodup →
        (setupDataSplit samples shuffled).1.Disjoint
          (setupDataSplit samples shuffled).2)
    ∧ trainSizeOf 100 = 80 ∧ 100 - trainSizeOf 100 = 20 := by
  have hlen : shuffled.length = samples.length := hperm.length_eq
  have hle : trainSizeOf samples.length ≤ samples.length := by
    unfold trainSizeOf; omega
  refine ⟨?_, ?_, ?_, ?_, by decide, by decide⟩
  · simp [setupDataSplit, hlen, hle]
  · simp [setupDataSplit, hlen]
  · simpa [setupDataSplit] using hperm
  · intro hnd
    have hnd' : shuffled.Nodup := hperm.nodup_iff.2 hnd
    simpa [setupDataSplit] using
      List.disjoint_take_drop hnd' (Nat.le_refl (trainSizeOf samples.length))

/-- C8 witness: the partition property at 100 concrete samples with the
identity shuffle. -/
theorem C8_witness :
    (setupDataSplit (List.range 100) (List.range 100)).1.length
        = trainSizeOf (List.range 100).length
    ∧ (setupDataSplit (List.range 100) (List.range 100)).2.length
        = (List.range 100).length - trainSizeOf (List.range 100).length
    ∧ ((setupDataSplit (List.range 100) (List.range 100)).1
        ++ (setupDataSplit (List.range 100) (List.range 100)).2).Perm
          (List.range 100)
    ∧ ((List.range 100).Nodup →
        (setupDataSplit (List.range 100) (List.range 100)).1.Disjoint
          (setupDataSplit (List.range 100) (List.range 100)).2)
    ∧ trainSizeOf 100 = 80 ∧ 100 - trainSizeOf 100 = 20 :=
  C8_split_partition (List.range 100) (List.range 100) (List.Perm.refl _)

/-! ### Claim C9 -/

theorem stepThread_no_load (g : RaceState) (i : Nat)
    (h1 : g.modelSet = true)
    (h2 : ∀ pc ∈ g.pcs, pc = TPc.atCheck1 ∨ pc = TPc.finished) :
    (stepThread g i).modelSet = true
    ∧ (stepThread g i).loadCount = g.loadCount
    ∧ ∀ pc ∈ (stepThread g i).pcs, pc = TPc.atCheck1 ∨ pc = TPc.finished := by
  unfold stepThread
  cases hg : g.pcs.get? i with
  | none => exact ⟨h1, rfl, h2⟩
  | some pc =>
      have hmem := List.get?_mem hg
      rcases h2 pc hmem with rfl | rfl
      · have hif : (if g.modelSet = true then TPc.finished else TPc.atCheck2)
            = TPc.finished := by rw [h1]; simp
        rw [hif]
        refine ⟨h1, rfl, ?_⟩
        intro q hq
        rcases List.mem_or_eq_of_mem_set hq with hq' | rfl
        · exact h2 q hq'
        · exact Or.inr rfl
      · exact ⟨h1, rfl, h2⟩

theorem foldl_stepThread_no_load (sched : List Nat) :
    ∀ g : RaceState, g.modelSet = true →
      (∀ pc ∈ g.pcs, pc = TPc.atCheck1 ∨ pc = TPc.finished) →
      (sched.foldl stepThread g).loadCount = g.loadCount := by
  induction sched with
  | nil => intro g _ _; rfl
  | cons s t ih =>
      intro g h1 h2
      obtain ⟨m1, m2, m3⟩ := stepThread_no_load g s h1 h2
      simp only [List.foldl_cons]
      rw [ih (stepThread g s) m1 m3, m2]

/-- C9 counterexample: two concurrent cold-start calls whose steps
interleave as (check A, check B, inner check A, inner check B, load A,
load B) read the checkpoint from storage twice — the lock-free
check-then-load of `outputs.py` does not bound the number of loads to one
under concurrent first callers. -/
theorem C9_counterexample :
    (runSched 2 [0, 1, 0, 1, 0, 1]).loadCount = 2 := by
  decide

/-- C9 (amended): without interleaving the lazy load executes exactly
once — when each of the `n ≥ 1` cold-start callers runs to completion
before the next starts, the checkpoint is read exactly once — and after
initialization a call on a warm service leaves the global model state
unchanged (no per-call mutation), returning a structured result. -/
theorem C9_sequential_load_once (n : Nat) (h : 1 ≤ n) :
    (runSched n (seqSched n)).loadCount = 1
    ∧ ∀ (fwd : Image → List ℝ) (ckpt : CkptFile) (env : DecodeEnv)
        (hd : HeadShape) (input : ImageInput) (classes : List String),
        ∃ r, predict fwd ckpt env (some hd) input classes
              = Except.ok (some hd, r) := by
  constructor
  · obtain ⟨m, rfl⟩ : ∃ m, n = m + 1 := ⟨n - 1, by omega⟩
    have hseq : seqSched (m + 1)
        = [0, 0, 0]
          ++ (((List.range m).map (· + 1)).flatMap (fun i => [i, i, i])) := by
      unfold seqSched
      rw [List.range_succ_eq_map]
      rfl
    unfold runSched
    rw [hseq, List.foldl_append]
    have hpref :
        List.foldl stepThread
          ⟨false, 0, List.replicate (m + 1) TPc.atCheck1⟩ [0, 0, 0]
        = ⟨true, 1, TPc.finished :: List.replicate m TPc.atCheck1⟩ := rfl
    rw [hpref]
    refine foldl_stepThread_no_load _ _ rfl ?_
    intro pc hpc
    rcases List.mem_cons.1 hpc with rfl | hpc'
    · exact Or.inr rfl
    · exact Or.inl (List.eq_of_mem_replicate hpc')
  · intro fwd ckpt env hd input classes
    have hred : predict fwd ckpt env (some hd) input classes
        = match tryBlock fwd env input classes with
          | .ok r => Except.ok (some hd, ⟨none, some r.1, r.2.1, r.2.2⟩)
          | .error e => Except.ok (some hd, ⟨some e.msg, none, 0, []⟩) := rfl
    cases htb : tryBlock fwd env input classes with
    | ok d => exact ⟨_, by rw [hred, htb]⟩
    | error e => exact ⟨_, by rw [hred, htb]⟩

/-- C9 witness: three sequential cold-start callers load the checkpoint
exactly once. -/
theorem C9_witness : (runSched 3 (seqSched 3)).loadCount = 1 :=
  (C9_sequential_load_once 3 (by decide)).1

/-! ### Claim C7 -/

theorem take_append_left {α : Type} (l₁ l₂ : List α) (n : Nat)
    (h : n ≤ l₁.length) : (l₁ ++ l₂).take n = l₁.take n := by
  induction l₁ generalizing n with
  | nil =>
      have : n = 0 := by simpa using h
      simp [this]
  | cons a t ih =>
      cases n with
      | zero => rfl
      | succ m =>
          simp only [List.cons_append, List.take_succ_cons]
          rw [ih m (by simpa using h)]

theorem enumFrom_append {α : Type} (l₁ l₂ : List α) (n : Nat) :
    (l₁ ++ l₂).enumFrom n = l₁.enumFrom n ++ l₂.enumFrom (n + l₁.length) := by
  induction l₁ generalizing n with
  | nil => simp
  | cons a t ih =>
      simp only [List.cons_append, List.enumFrom, List.append_eq, ih,
        List.length_cons]
      rw [show n + (t.length + 1) = n + 1 + t.length by omega]

theorem enum_append_singleton {α : Type} (xs : List α) (x : α) :
    (xs ++ [x]).enum = xs.enum ++ [(xs.length, x)] := by
  have h := enumFrom_append xs [x] 0
  simpa [List.enum_eq_enumFrom, List.enumFrom] using h

theorem savesSpec_append (accs : List ℚ) (a : ℚ) :
    savesSpec (accs ++ [a])
      = savesSpec accs
        ++ (if accs.foldl max 0 < a then [(accs.length, a)] else []) := by
  unfold savesSpec
  rw [enum_append_singleton, List.filter_append]
  congr 1
  · apply List.filter_congr
    intro p hp
    obtain ⟨hlt, -⟩ := List.get?_eq_some.1 (List.mem_enum_iff_get?.1 hp)
    rw [take_append_left accs [a] p.1 (Nat.le_of_lt hlt)]
  · simp only [List.filter_cons, List.filter_nil]
    rw [List.take_left]
    by_cases hca : accs.foldl max 0 < a
    · simp [hca]
    · simp [hca]

theorem runEpochs_spec (es : List EpochStats) :
    runEpochs es = ((es.map valAcc).foldl max 0, savesSpec (es.map valAcc)) := by
  induction es using List.reverseRecOn with
  | nil => rfl
  | append_singleton xs x ih =>
      unfold runEpochs at ih ⊢
      rw [enum_append_singleton, List.foldl_append, ih, List.map_append,
        List.foldl_append]
      simp only [List.foldl_cons, List.foldl_nil, List.map_cons, List.map_nil]
      rw [savesSpec_append]
      by_cases hlt : (xs.map valAcc).foldl max 0 < valAcc x
      · rw [if_pos hlt, if_pos hlt, max_eq_right (le_of_lt hlt),
          List.length_map]
      · rw [if_neg hlt, if_neg hlt, max_eq_left (not_lt.1 hlt),
          List.append_nil]

/-- C7: during a run of `Model.train` (with nonempty validation batches,
so each epoch's accuracy is well defined), the checkpoint write log
contains epoch `i` if and only if that epoch's validation accuracy
strictly exceeds the best accuracy seen earlier in the run (the `best_acc`
record, initialized to 0), the write records exactly that accuracy, and
the final best record is the running maximum — so `best_model.pth` is
never overwritten without a strict improvement and the best-value record
is updated at the same step. -/
theorem C7_checkpoint_iff_improvement (es : List EpochStats)
    (h : ∀ e ∈ es, 0 < e.valTotal) :
    runEpochs es = ((es.map valAcc).foldl max 0, savesSpec (es.map valAcc)) :=
  runEpochs_spec es

/-- C7 witness: a three-epoch run with accuracies 50%, 30%, 80% writes
the checkpoint at epochs 0 and 2 only. -/
theorem C7_witness :
    runEpochs cEpochs
      = ((cEpochs.map valAcc).foldl max 0, savesSpec (cEpochs.map valAcc)) :=
  C7_checkpoint_iff_improvement cEpochs (by decide)

/-! ### Claim C3 -/

/-- C3 counterexample: on a cold service whose checkpoint matches neither
head shape, the `RuntimeError` raised by the second `load_state_dict`
attempt escapes `predict` as an unhandled exception to the caller — it is
not converted into a structured failure result, because the lazy-load
call sits outside `predict`'s try-block. -/
theorem C3_counterexample :
    predict cFwd CkptFile.otherShape cEnvOk none (.pil demoImg) cClasses
      = Except.error (.runtimeError
          "Error(s) in loading state_dict: size mismatch for fc") := rfl

/-- C3 (amended): the loader tries the bare linear head first and falls
back to the dropout-wrapped head exactly on a structural mismatch
(`except RuntimeError`); but when neither shape matches, the resulting
shape error is not caught at the service boundary — it escapes `predict`
to the caller for every input and class list. -/
theorem C3_shape_fallback_then_escape :
    load_model (.shaped .bare) = Except.ok .bare
    ∧ load_model (.shaped .wrapped) = Except.ok .wrapped
    ∧ ∀ (fwd : Image → List ℝ) (env : DecodeEnv) (input : ImageInput)
        (classes : List String),
        predict fwd CkptFile.otherShape env none input classes
          = Except.error (.runtimeError
              "Error(s) in loading state_dict: size mismatch for fc") :=
  ⟨rfl, rfl, fun _ _ _ _ => rfl⟩

/-! ### Claim C2 -/

/-- C2: whenever the model is already loaded (or the checkpoint loads
cleanly) and the input fails to decode — a bad file, bad bytes, a PIL
conversion failure, or an unsupported input type — `predict` returns
normally with the structured error dict: message set, prediction `None`,
confidence 0.0 and an empty probability distribution; no exception
crosses the service boundary. -/
theorem C2_decode_failure_structured (fwd : Image → List ℝ)
    (ckpt : CkptFile) (env : DecodeEnv) (st st' : Option HeadShape)
    (input : ImageInput) (classes : List String) (e : PyErr)
    (hload : loadStep st ckpt = Except.ok st')
    (hdec : decodeInput env input = Except.error e) :
    predict fwd ckpt env st input classes
      = Except.ok (st', ⟨some e.msg, none, 0, []⟩) := by
  have htb : tryBlock fwd env input classes = Except.error e := by
    unfold tryBlock
    rw [hdec]
    rfl
  unfold predict
  rw [hload]
  show (match tryBlock fwd env input classes with
    | .ok r => Except.ok (st', (⟨none, some r.1, r.2.1, r.2.2⟩ : PredResult))
    | .error e => Except.ok (st', ⟨some e.msg, none, 0, []⟩)) = _
  rw [htb]

/-- C2 witness: a path input whose bytes cannot be identified as an
image, against a warm service. -/
theorem C2_witness :
    predict cFwd (.shaped .bare) cEnvBad (some .bare) (.path "car.jpg")
        cClasses
      = Except.ok (some .bare,
          ⟨some "cannot identify image file", none, 0, []⟩) :=
  C2_decode_failure_structured cFwd (.shaped .bare) cEnvBad (some .bare)
    (some .bare) (.path "car.jpg") cClasses
    (.otherError "cannot identify image file") rfl rfl

/-! ### Claim C1 -/

theorem exceptBind_ok {e a b : Type} (x : a) (f : a → Except e b) :
    (Except.ok x >>= f) = f x := rfl

theorem exceptBind_error {e a b : Type} (err : e) (f : a → Except e b) :
    ((Except.error err : Except e a) >>= f) = Except.error err := rfl

theorem tryBlock_eq_ok (fwd : Image → List ℝ) (env : DecodeEnv)
    (input : ImageInput) (classes : List String) (img : Image)
    (c : String) (v : ℝ)
    (hdec : decodeInput env input = Except.ok img)
    (hc : classes.get?
        (argmaxIdx (fwd (runPipeline inferenceTransform [] img))) = some c)
    (hv : (softmax (fwd (runPipeline inferenceTransform [] img))).get?
        (argmaxIdx (fwd (runPipeline inferenceTransform [] img))) = some v) :
    tryBlock fwd env input classes
      = Except.ok (c, v, pyDict (classes.zip
          (softmax (fwd (runPipeline inferenceTransform [] img))))) := by
  unfold tryBlock
  rw [hdec]
  simp only [exceptBind_ok]
  rw [hc]
  simp only [exceptBind_ok]
  rw [hv]

/-- C1 (amended): the head replacement in `load_model` fixes the score
vector at 3 entries (`nn.Linear(in_features, 3)`), so the claim holds for
class lists of exactly 3 distinct labels: for every input that decodes to
a valid image, `predict` on a warm service returns a result whose
`all_probabilities` mapping has exactly `len(classes)` entries summing to
1 (well within the 1e-4 tolerance), and whose `prediction` is the label
at the arg-max index of that distribution. -/
theorem C1_prediction_distribution (fwd : Image → List ℝ)
    (hfwd : ∀ t, (fwd t).length = 3)
    (ckpt : CkptFile) (env : DecodeEnv) (hd : HeadShape)
    (input : ImageInput) (img : Image) (classes : List String)
    (hdec : decodeInput env input = Except.ok img)
    (hlen : classes.length = 3) (hnd : classes.Nodup) :
    ∃ r, predict fwd ckpt env (some hd) input classes
        = Except.ok (some hd, r)
      ∧ r.error = none
      ∧ r.all_probabilities.length = classes.length
      ∧ |(r.all_probabilities.map Prod.snd).sum - 1| ≤ 1 / 10000
      ∧ r.prediction
          = classes.get? (argmaxIdx (r.all_probabilities.map Prod.snd)) := by
  set scores := fwd (runPipeline inferenceTransform [] img) with hscores
  have hs3 : scores.length = 3 := hfwd _
  have hne : scores ≠ [] := by
    intro hcontra
    rw [hcontra] at hs3
    simp at hs3
  have hidx : argmaxIdx scores < 3 := by
    have h := argmaxIdx_lt scores hne
    rw [hs3] at h
    exact h
  have hidxc : argmaxIdx scores < classes.length := by rw [hlen]; exact hidx
  have hidxp : argmaxIdx scores < (softmax scores).length := by
    rw [softmax_length, hs3]; exact hidx
  have hc := List.get?_eq_get hidxc
  have hv := List.get?_eq_get hidxp
  have htb := tryBlock_eq_ok fwd env input classes img _ _ hdec hc hv
  have hkeys : (classes.zip (softmax scores)).map Prod.fst = classes :=
    List.map_fst_zip classes (softmax scores)
      (by rw [softmax_length, hs3, hlen])
  have hsnd : (classes.zip (softmax scores)).map Prod.snd = softmax scores :=
    List.map_snd_zip classes (softmax scores)
      (by rw [softmax_length, hs3, hlen])
  have hPz : pyDict (classes.zip (softmax scores))
      = classes.zip (softmax scores) :=
    pyDict_eq_self _ (by rw [hkeys]; exact hnd)
  have hS : 0 < (scores.map Real.exp).sum := by
    apply List.sum_pos
    · intro x hx
      rcases List.mem_map.1 hx with ⟨y, _, rfl⟩
      exact Real.exp_pos y
    · simpa using hne
  refine ⟨⟨none, some (classes.get ⟨argmaxIdx scores, hidxc⟩),
      (softmax scores).get ⟨argmaxIdx scores, hidxp⟩,
      pyDict (classes.zip (softmax scores))⟩, ?_, rfl, ?_, ?_, ?_⟩
  · have hred : predict fwd ckpt env (some hd) input classes
        = match tryBlock fwd env input classes with
          | .ok r => Except.ok (some hd,
              (⟨none, some r.1, r.2.1, r.2.2⟩ : PredResult))
          | .error e => Except.ok (some hd, ⟨some e.msg, none, 0, []⟩) := rfl
    rw [hred, htb]
  · show (pyDict (classes.zip (softmax scores))).length = classes.length
    rw [hPz, List.length_zip, softmax_length, hs3, hlen]
    simp
  · show |((pyDict (classes.zip (softmax scores))).map Prod.snd).sum - 1|
        ≤ 1 / 10000
    rw [hPz, hsnd, softmax_sum scores hne]
    norm_num
  · show some (classes.get ⟨argmaxIdx scores, hidxc⟩)
        = classes.get? (argmaxIdx
            ((pyDict (classes.zip (softmax scores))).map Prod.snd))
    rw [hPz, hsnd, softmax_argmax scores hS, ← hc]

theorem map_fst_zip_take {α β : Type} (l1 : List α) (l2 : List β) :
    (l1.zip l2).map Prod.fst = l1.take l2.length := by
  induction l1 generalizing l2 with
  | nil => simp
  | cons a t ih =>
      cases l2 with
      | nil => simp
      | cons b s => simp [ih]

/-- C1 counterexample: against the four-label class list
`["safe", "too_close", "danger", "far"]` (so `len(L) = 4`), `predict` on
a valid image returns an `all_probabilities` mapping with only 3
entries — `zip(classes, probabilities[0])` truncates at the model's fixed
3-way output — so the mapping does not have exactly `len(L)` entries as
the claim states. -/
theorem C1_counterexample :
    (predict cFwd (.shaped .bare) cEnvOk (some .bare) (.pil demoImg)
        ["safe", "too_close", "danger", "far"]).map
      (fun p => p.2.all_probabilities.length) = Except.ok 3
    ∧ (3 : Nat)
        ≠ (["safe", "too_close", "danger", "far"] : List String).length := by
  refine ⟨?_, by decide⟩
  have hsc3 : cFwd (runPipeline inferenceTransform [] demoImg)
      = [(0 : ℝ), 0, 0] := rfl
  have hidx : argmaxIdx (cFwd (runPipeline inferenceTransform [] demoImg))
      = 0 := by
    rw [hsc3]
    simp [argmaxIdx, argmaxAux]
  have hc : (["safe", "too_close", "danger", "far"] : List String).get?
      (argmaxIdx (cFwd (runPipeline inferenceTransform [] demoImg)))
      = some "safe" := by rw [hidx]; rfl
  obtain ⟨v, hv⟩ : ∃ v,
      (softmax (cFwd (runPipeline inferenceTransform [] demoImg))).get?
        (argmaxIdx (cFwd (runPipeline inferenceTransform [] demoImg)))
      = some v := by
    rw [hidx, hsc3]
    exact ⟨_, rfl⟩
  have htb := tryBlock_eq_ok cFwd cEnvOk (.pil demoImg)
    ["safe", "too_close", "danger", "far"] demoImg "safe" v rfl hc hv
  have hred : predict cFwd (.shaped .bare) cEnvOk (some .bare) (.pil demoImg)
      ["safe", "too_close", "danger", "far"]
      = match tryBlock cFwd cEnvOk (.pil demoImg)
          ["safe", "too_close", "danger", "far"] with
        | .ok r => Except.ok (some HeadShape.bare,
            (⟨none, some r.1, r.2.1, r.2.2⟩ : PredResult))
        | .error e => Except.ok (some HeadShape.bare,
            ⟨some e.msg, none, 0, []⟩) := rfl
  rw [hred, htb]
  have hkeys : ((["safe", "too_close", "danger", "far"] : List String).zip
      (softmax (cFwd (runPipeline inferenceTransform [] demoImg)))).map
        Prod.fst
      = ["safe", "too_close", "danger"] := by
    rw [map_fst_zip_take, softmax_length, hsc3]
    rfl
  have hPz := pyDict_eq_self
    ((["safe", "too_close", "danger", "far"] : List String).zip
      (softmax (cFwd (runPipeline inferenceTransform [] demoImg))))
    (by rw [hkeys]; decide)
  have hlen : (pyDict
      ((["safe", "too_close", "danger", "far"] : List String).zip
        (softmax (cFwd (runPipeline inferenceTransform [] demoImg))))).length
      = 3 := by
    rw [hPz, List.length_zip, softmax_length, hsc3]
    decide
  exact congrArg Except.ok hlen

/-- C1 witness: the amended statement at the serving class list, a
concrete image and the equal-scores network. -/
theorem C1_witness :
    ∃ r, predict cFwd (.shaped .bare) cEnvOk (some .bare) (.pil demoImg)
        cClasses
        = Except.ok (some .bare, r)
      ∧ r.error = none
      ∧ r.all_probabilities.length = cClasses.length
      ∧ |(r.all_probabilities.map Prod.snd).sum - 1| ≤ 1 / 10000
      ∧ r.prediction
          = cClasses.get? (argmaxIdx (r.all_probabilities.map Prod.snd)) :=
  C1_prediction_distribution cFwd (fun _ => rfl) (.shaped .bare) cEnvOk
    .bare (.pil demoImg) demoImg cClasses rfl rfl (by decide)

/-! ### Claim C10 -/

/-- C10: whenever `predict` returns (rather than raising), the result
dict always carries the keys `prediction`, `confidence` and
`all_probabilities` (the fields of `PredResult`); the `error` key is
present (`r.error = some _`) exactly when the try-block pipeline failed,
and in that case `prediction` is `None`, `confidence` is 0.0 and
`all_probabilities` is empty — so callers distinguish success from
failure by testing for `error`. -/
theorem C10_result_shape (fwd : Image → List ℝ) (ckpt : CkptFile)
    (env : DecodeEnv) (st st' : Option HeadShape) (input : ImageInput)
    (classes : List String) (r : PredResult)
    (hres : predict fwd ckpt env st input classes = Except.ok (st', r)) :
    ((r.error = none) ↔ ∃ d, tryBlock fwd env input classes = Except.ok d)
    ∧ (r.error ≠ none →
        r.prediction = none ∧ r.confidence = 0 ∧ r.all_probabilities = []) := by
  unfold predict at hres
  cases hload : loadStep st ckpt with
  | error e =>
      rw [hload] at hres
      exact absurd hres (by simp [exceptBind_error])
  | ok s =>
      rw [hload] at hres
      simp only [exceptBind_ok] at hres
      cases htb : tryBlock fwd env input classes with
      | ok d =>
          rw [htb] at hres
          have h1 : (s, (⟨none, some d.1, d.2.1, d.2.2⟩ : PredResult))
              = (st', r) := Except.ok.inj hres
          have hr : r = ⟨none, some d.1, d.2.1, d.2.2⟩ :=
            (congrArg Prod.snd h1).symm
          subst hr
          refine ⟨?_, ?_⟩
          · simp [htb]
          · intro hcontra
            exact absurd rfl hcontra
      | error e =>
          rw [htb] at hres
          have h1 : (s, (⟨some e.msg, none, 0, []⟩ : PredResult))
              = (st', r) := Except.ok.inj hres
          have hr : r = ⟨some e.msg, none, 0, []⟩ :=
            (congrArg Prod.snd h1).symm
          subst hr
          refine ⟨?_, fun _ => ⟨rfl, rfl, rfl⟩⟩
          constructor
          · intro hcontra
            simp at hcontra
          · rintro ⟨d, hd⟩
            simp [htb] at hd

/-- C10 witness: the failure path at a concrete unsupported input type on
a warm service. -/
theorem C10_witness :
    ((((⟨some "Unsupported image input type", none, 0, []⟩ : PredResult).error
          = none)
        ↔ ∃ d, tryBlock cFwd cEnvOk ImageInput.otherType cClasses
            = Except.ok d)
      ∧ ((⟨some "Unsupported image input type", none, 0,
            []⟩ : PredResult).error ≠ none →
          (⟨some "Unsupported image input type", none, 0,
            []⟩ : PredResult).prediction = none
          ∧ (⟨some "Unsupported image input type", none, 0,
              []⟩ : PredResult).confidence = 0
          ∧ (⟨some "Unsupported image input type", none, 0,
              []⟩ : PredResult).all_probabilities = [])) :=
  C10_result_shape cFwd (.shaped .bare) cEnvOk (some .bare) (some .bare)
    ImageInput.otherType cClasses
    ⟨some "Unsupported image input type", none, 0, []⟩ rfl
